import Mathlib

/-!
Verification of the rigid-body superimposition core (`structure/superimpose.py`)
of the repository: the Kabsch-style aligner `superimpose`, its worker
`_superimpose`, and the transform replayer `apply_superimposition`.

Coordinates are embedded exactly, over `ℚ` (the Python code computes with
IEEE doubles; every algebraic and control-flow property checked here is
exact, so `ℚ` is a faithful carrier for the arithmetic the code performs).
`numpy.linalg.svd` is an external dense-SVD routine; it is embedded as an
oracle parameter `svdf : Mat3 → Mat3 × Vec3 × Mat3` together with the
predicate `IsSVD` stating the numpy contract for the triple actually used
(`cov = v ⬝ diag s ⬝ w`, `v` and `w` orthogonal, singular values descending
and nonnegative).  The single oracle also models that numpy is
deterministic: two calls on the same matrix give the same triple.

The atom container and the two helpers `centroid` and `stack` live in
`structure/atoms.py` / `structure/geometry.py`, which are not part of the
sources at hand; they are modelled from the spec where marked.
-/

/-! ## Vectors and 3×3 matrices -/

/-- A 3D point, one row of an `(N, 3)` numpy coordinate array. -/
structure Vec3 where
  x : ℚ
  y : ℚ
  z : ℚ
deriving DecidableEq

instance : Add Vec3 := ⟨fun a b => ⟨a.x + b.x, a.y + b.y, a.z + b.z⟩⟩
instance : Sub Vec3 := ⟨fun a b => ⟨a.x - b.x, a.y - b.y, a.z - b.z⟩⟩
instance : Neg Vec3 := ⟨fun a => ⟨-a.x, -a.y, -a.z⟩⟩
instance : Zero Vec3 := ⟨⟨0, 0, 0⟩⟩

theorem add3_def (a b : Vec3) : a + b = ⟨a.x + b.x, a.y + b.y, a.z + b.z⟩ := rfl

theorem sub3_def (a b : Vec3) : a - b = ⟨a.x - b.x, a.y - b.y, a.z - b.z⟩ := rfl

theorem neg3_def (a : Vec3) : -a = ⟨-a.x, -a.y, -a.z⟩ := rfl

theorem zero3_def : (0 : Vec3) = ⟨0, 0, 0⟩ := rfl

theorem add3_assoc (a b c : Vec3) : a + b + c = a + (b + c) := by
  obtain ⟨_, _, _⟩ := a; obtain ⟨_, _, _⟩ := b; obtain ⟨_, _, _⟩ := c
  simp only [add3_def, Vec3.mk.injEq]
  and_intros <;> ring

theorem add3_comm (a b : Vec3) : a + b = b + a := by
  obtain ⟨_, _, _⟩ := a; obtain ⟨_, _, _⟩ := b
  simp only [add3_def, Vec3.mk.injEq]
  and_intros <;> ring

theorem zero3_add (a : Vec3) : 0 + a = a := by
  obtain ⟨_, _, _⟩ := a
  simp only [zero3_def, add3_def, Vec3.mk.injEq]
  and_intros <;> ring

theorem add3_zero (a : Vec3) : a + 0 = a := by
  obtain ⟨_, _, _⟩ := a
  simp only [zero3_def, add3_def, Vec3.mk.injEq]
  and_intros <;> ring

theorem neg3_add_cancel (a : Vec3) : -a + a = 0 := by
  obtain ⟨_, _, _⟩ := a
  simp only [zero3_def, add3_def, neg3_def, Vec3.mk.injEq]
  and_intros <;> ring

theorem sub3_eq (a b : Vec3) : a - b = a + -b := by
  obtain ⟨_, _, _⟩ := a; obtain ⟨_, _, _⟩ := b
  simp only [sub3_def, add3_def, neg3_def, Vec3.mk.injEq]
  and_intros <;> ring

instance : AddCommGroup Vec3 where
  add := (· + ·)
  zero := 0
  neg := (- ·)
  sub := (· - ·)
  add_assoc := add3_assoc
  zero_add := zero3_add
  add_zero := add3_zero
  add_comm := add3_comm
  neg_add_cancel := neg3_add_cancel
  sub_eq_add_neg := sub3_eq
  nsmul := nsmulRec
  zsmul := zsmulRec

/-- Scalar multiple of a 3-vector. -/
def Vec3.scale (c : ℚ) (v : Vec3) : Vec3 :=
  ⟨c * v.x, c * v.y, c * v.z⟩

/-- Dot product of two 3-vectors. -/
def dot3 (a b : Vec3) : ℚ :=
  a.x * b.x + a.y * b.y + a.z * b.z

/-- A 3×3 real matrix, stored by rows. -/
structure Mat3 where
  r0 : Vec3
  r1 : Vec3
  r2 : Vec3
deriving DecidableEq

/-- Row vector times matrix, `np.dot(p, M)` for a single coordinate row `p`:
component `j` of the result is `∑ i, p i * M i j`. -/
def vecMulRow (p : Vec3) (M : Mat3) : Vec3 :=
  Vec3.scale p.x M.r0 + Vec3.scale p.y M.r1 + Vec3.scale p.z M.r2

/-- Matrix product `np.dot(A, B)` of two 3×3 matrices. -/
def Mat3.mul (A B : Mat3) : Mat3 :=
  ⟨vecMulRow A.r0 B, vecMulRow A.r1 B, vecMulRow A.r2 B⟩

/-- Matrix transpose `A.T`. -/
def transpose3 (A : Mat3) : Mat3 :=
  ⟨⟨A.r0.x, A.r1.x, A.r2.x⟩, ⟨A.r0.y, A.r1.y, A.r2.y⟩, ⟨A.r0.z, A.r1.z, A.r2.z⟩⟩

instance : Zero Mat3 := ⟨⟨0, 0, 0⟩⟩
instance : Add Mat3 := ⟨fun A B => ⟨A.r0 + B.r0, A.r1 + B.r1, A.r2 + B.r2⟩⟩

theorem zeroM_def : (0 : Mat3) = ⟨0, 0, 0⟩ := rfl

theorem addM_def (A B : Mat3) : A + B = ⟨A.r0 + B.r0, A.r1 + B.r1, A.r2 + B.r2⟩ := rfl

theorem addM_assoc (A B C : Mat3) : A + B + C = A + (B + C) := by
  simp only [addM_def, Mat3.mk.injEq]
  and_intros <;> apply add3_assoc

theorem addM_comm (A B : Mat3) : A + B = B + A := by
  simp only [addM_def, Mat3.mk.injEq]
  and_intros <;> apply add3_comm

theorem zeroM_add (A : Mat3) : 0 + A = A := by
  obtain ⟨a, b, c⟩ := A
  simp only [zeroM_def, addM_def, Mat3.mk.injEq]
  and_intros <;> apply zero3_add

theorem addM_zero (A : Mat3) : A + 0 = A := by
  obtain ⟨a, b, c⟩ := A
  simp only [zeroM_def, addM_def, Mat3.mk.injEq]
  and_intros <;> apply add3_zero

instance : AddCommMonoid Mat3 where
  add := (· + ·)
  zero := 0
  add_assoc := addM_assoc
  zero_add := zeroM_add
  add_zero := addM_zero
  add_comm := addM_comm
  nsmul := nsmulRec

theorem mul3_assoc (A B C : Mat3) : Mat3.mul (Mat3.mul A B) C = Mat3.mul A (Mat3.mul B C) := by
  obtain ⟨⟨_, _, _⟩, ⟨_, _, _⟩, ⟨_, _, _⟩⟩ := A
  obtain ⟨⟨_, _, _⟩, ⟨_, _, _⟩, ⟨_, _, _⟩⟩ := B
  obtain ⟨⟨_, _, _⟩, ⟨_, _, _⟩, ⟨_, _, _⟩⟩ := C
  simp only [Mat3.mul, vecMulRow, Vec3.scale, add3_def, Mat3.mk.injEq, Vec3.mk.injEq]
  and_intros <;> ring

/-- The 3×3 identity matrix. -/
def idMat3 : Mat3 :=
  ⟨⟨1, 0, 0⟩, ⟨0, 1, 0⟩, ⟨0, 0, 1⟩⟩

theorem one3_mul (A : Mat3) : Mat3.mul idMat3 A = A := by
  obtain ⟨⟨_, _, _⟩, ⟨_, _, _⟩, ⟨_, _, _⟩⟩ := A
  simp only [Mat3.mul, idMat3, vecMulRow, Vec3.scale, add3_def, Mat3.mk.injEq, Vec3.mk.injEq]
  and_intros <;> ring

theorem mul3_one (A : Mat3) : Mat3.mul A idMat3 = A := by
  obtain ⟨⟨_, _, _⟩, ⟨_, _, _⟩, ⟨_, _, _⟩⟩ := A
  simp only [Mat3.mul, idMat3, vecMulRow, Vec3.scale, add3_def, Mat3.mk.injEq, Vec3.mk.injEq]
  and_intros <;> ring

instance : Monoid Mat3 where
  mul := Mat3.mul
  one := idMat3
  mul_assoc := mul3_assoc
  one_mul := one3_mul
  mul_one := mul3_one

theorem mulM_def (A B : Mat3) : A * B = ⟨vecMulRow A.r0 B, vecMulRow A.r1 B, vecMulRow A.r2 B⟩ := rfl

theorem oneM_def : (1 : Mat3) = ⟨⟨1, 0, 0⟩, ⟨0, 1, 0⟩, ⟨0, 0, 1⟩⟩ := rfl

theorem r0_one : Mat3.r0 1 = ⟨1, 0, 0⟩ := rfl

theorem r1_one : Mat3.r1 1 = ⟨0, 1, 0⟩ := rfl

theorem r2_one : Mat3.r2 1 = ⟨0, 0, 1⟩ := rfl

/-- Diagonal matrix with the given diagonal, `np.diag(s)`. -/
def diag3 (s : Vec3) : Mat3 :=
  ⟨⟨s.x, 0, 0⟩, ⟨0, s.y, 0⟩, ⟨0, 0, s.z⟩⟩

/-- Outer product `a bᵀ` of two 3-vectors:  entry `(i, j)` is `a i * b j`. -/
def outer3 (a b : Vec3) : Mat3 :=
  ⟨Vec3.scale a.x b, Vec3.scale a.y b, Vec3.scale a.z b⟩

/-- Determinant of a 3×3 matrix by the explicit cofactor formula, the value
`numpy.linalg.det` returns on such a matrix. -/
def det3 (m : Mat3) : ℚ :=
  m.r0.x * (m.r1.y * m.r2.z - m.r1.z * m.r2.y)
    - m.r0.y * (m.r1.x * m.r2.z - m.r1.z * m.r2.x)
    + m.r0.z * (m.r1.x * m.r2.y - m.r1.y * m.r2.x)

/-! ## Coordinate lists and the atom container -/

/-- Arithmetic mean of a list of points (`numpy.mean` along the atom axis). -/
def centroidPts (pts : List Vec3) : Vec3 :=
  Vec3.scale ((pts.length : ℚ))⁻¹ pts.sum

/-- Cross-covariance `np.dot(y.T, x)` of two equally long `(N, 3)` coordinate
arrays: entry `(i, j)` is `∑ k, y k i * x k j`. -/
def covMatrix (y x : List Vec3) : Mat3 :=
  ⟨⟨((y.zip x).map (fun pq => pq.1.x * pq.2.x)).sum,
    ((y.zip x).map (fun pq => pq.1.x * pq.2.y)).sum,
    ((y.zip x).map (fun pq => pq.1.x * pq.2.z)).sum⟩,
   ⟨((y.zip x).map (fun pq => pq.1.y * pq.2.x)).sum,
    ((y.zip x).map (fun pq => pq.1.y * pq.2.y)).sum,
    ((y.zip x).map (fun pq => pq.1.y * pq.2.z)).sum⟩,
   ⟨((y.zip x).map (fun pq => pq.1.z * pq.2.x)).sum,
    ((y.zip x).map (fun pq => pq.1.z * pq.2.y)).sum,
    ((y.zip x).map (fun pq => pq.1.z * pq.2.z)).sum⟩⟩

/-- Modelled from the spec: the atom container (`AtomArray` of
`structure/atoms.py`, not among the sources) is "an ordered sequence of 3D
points" with per-point annotation arrays, among them the atom-name array used
for landmark (Cα) selection; `copy()` duplicates it for independent mutation.
The annotation arrays are the container fields other than `coord`. -/
structure AtomArray where
  chain_id : List String
  res_id : List Int
  res_name : List String
  atom_name : List String
  element : List String
  coord : List Vec3
deriving DecidableEq

/-- Modelled from the spec: `centroid` of `structure/geometry.py` (not among
the sources) computes the "arithmetic mean position of a point set", here of
the full coordinate array of the container it is given. -/
def centroid (a : AtomArray) : Vec3 :=
  centroidPts a.coord

/-- Boolean-mask selection `coord[atom_name == " CA "]`: keep the coordinate
rows whose atom name is the (space-padded) Cα name.  Numpy mask indexing
returns a fresh copy. -/
def maskCApts (pts : List Vec3) (names : List String) : List Vec3 :=
  (pts.zip names).filterMap (fun pn => if pn.2 = " CA " then some pn.1 else none)

/-- The Cα-selected coordinate rows of an atom container. -/
def maskCA (a : AtomArray) : List Vec3 :=
  maskCApts a.coord a.atom_name

/-! ## The superimposition module -/

/-- The run-time failures the module can raise.  `valueError` carries the
message of the `raise ValueError(...)` statement; `nameError` carries the
identifier whose lookup failed; `indexError` is raised by numpy on an
indexing with too many indices. -/
inductive Err where
  | valueError (msg : String)
  | nameError (missing : String)
  | indexError
deriving DecidableEq

/-- The transformation triple returned by `_superimpose`:
`(-mob_centroid, rotation, fix_centroid)`. -/
structure Transfm where
  t1 : Vec3
  rot : Mat3
  t2 : Vec3
deriving DecidableEq

/-- The numpy contract for `v, s, w = np.linalg.svd(c)`: `v` and `w` are
orthogonal, `c = v ⬝ diag s ⬝ w`, and the singular values `s` come sorted in
descending order and are nonnegative. -/
def IsSVD (c v : Mat3) (s : Vec3) (w : Mat3) : Prop :=
  v * transpose3 v = 1 ∧ transpose3 v * v = 1 ∧
    w * transpose3 w = 1 ∧ transpose3 w * w = 1 ∧
    c = v * diag3 s * w ∧ s.y ≤ s.x ∧ s.z ≤ s.y ∧ 0 ≤ s.z

/-- The worker `_superimpose(fixed, mobile, ca_only)` of
`structure/superimpose.py`, embedded statement by statement.  `svdf` is the
`np.linalg.svd` oracle.  Two slips of the source are embedded as the errors
Python actually raises there:
the size-mismatch branch executes `raise BadStructureException(...)`, but the
module imports only `centroid, Atom, AtomArray, AtomArrayStack, stack` and
never defines `BadStructureException`, so evaluating the raise expression
raises `NameError("BadStructureException")`; and the reflection-guard branch
executes `s[-1,:] *= -1` on the 1-dimensional singular-value array `s`
returned by `np.linalg.svd`, which raises `IndexError` (two indices into a
1-D array) before `v[:,-1] *= -1` is reached.  The assignment
`rotation = np.dot(w, v.T)` before the guard is dead (unconditionally
overwritten by `rotation = np.dot(v, w)` further down) and carried here as a
discarded binding. -/
def _superimpose (svdf : Mat3 → Mat3 × Vec3 × Mat3)
    (fixed mobile : AtomArray) (ca_only : Bool) :
    Except Err (AtomArray × Transfm) :=
  let mob_centroid := centroid mobile
  let fix_centroid := centroid fixed
  let mob_centered0 := if ca_only then maskCA mobile else mobile.coord
  let fix_centered0 := if ca_only then maskCA fixed else fixed.coord
  if mob_centered0.length ≠ fix_centered0.length then
    Except.error (Err.nameError "BadStructureException")
  else
    let y := mob_centered0.map (fun p => p - mob_centroid)
    let x := fix_centered0.map (fun p => p - fix_centroid)
    let cov := covMatrix y x
    let vsw := svdf cov
    let v := vsw.1
    let s := vsw.2.1
    let w := vsw.2.2
    let _ := Mat3.mul w (transpose3 v)
    if det3 v * det3 w < 0 then
      Except.error Err.indexError
    else
      let rotation := v * w
      let c1 := mobile.coord.map (fun p => p - mob_centroid)
      let c2 := c1.map (fun p => vecMulRow p rotation)
      let c3 := c2.map (fun p => p + fix_centroid)
      Except.ok ({ mobile with coord := c3 },
                 ⟨-mob_centroid, rotation, fix_centroid⟩)

/-- Modelled from the spec: the stack container (`AtomArrayStack` of
`structure/atoms.py`, not among the sources) is "an ordered sequence of
CoordinateSet"; iterating it yields its member structures in order. -/
structure AtomArrayStack where
  arrays : List AtomArray
deriving DecidableEq

/-- Modelled from the spec: `stack` of `structure/atoms.py` (not among the
sources) collects a list of structures into a stack "preserving original
stack order". -/
def stack (l : List AtomArray) : AtomArrayStack :=
  ⟨l⟩

/-- A Python value passed as `fixed` or `mobile`: an `AtomArray`, an
`AtomArrayStack`, or anything of another type (the `type(x) != ...` dispatch
of the source). -/
inductive PyStruct where
  | arr (a : AtomArray)
  | stk (s : AtomArrayStack)
  | other
deriving DecidableEq

/-- What `superimpose` returns: a `(fitted, transformation)` pair for a
single mobile structure, or a `(fitted stack, transformation list)` pair for
a stack. -/
inductive SupResult where
  | single (fitted : AtomArray) (t : Transfm)
  | batch (fitted : AtomArrayStack) (ts : List Transfm)
deriving DecidableEq

/-- The loop `for mobile in mobile: ... fitted_subjects.append(...);
transformations.append(...)` of `superimpose`, with the first raised error
propagating. -/
def superimposeList (svdf : Mat3 → Mat3 × Vec3 × Mat3)
    (fixed : AtomArray) (ms : List AtomArray) (ca_only : Bool) :
    Except Err (List (AtomArray × Transfm)) :=
  match ms with
  | [] => Except.ok []
  | m :: rest =>
      match _superimpose svdf fixed m ca_only with
      | Except.error e => Except.error e
      | Except.ok r =>
          match superimposeList svdf fixed rest ca_only with
          | Except.error e => Except.error e
          | Except.ok rs => Except.ok (r :: rs)

/-- The public dispatcher `superimpose(fixed, mobile, ca_only)`: reject a
non-`AtomArray` reference with `ValueError`, run `_superimpose` directly on a
single mobile structure, loop over a stack and restack the fitted copies, and
reject any other mobile type with the same `ValueError`. -/
def superimpose (svdf : Mat3 → Mat3 × Vec3 × Mat3)
    (fixedP mobileP : PyStruct) (ca_only : Bool) :
    Except Err SupResult :=
  match fixedP with
  | PyStruct.arr fixed =>
    match mobileP with
    | PyStruct.arr mobile =>
        (_superimpose svdf fixed mobile ca_only).map
          (fun r => SupResult.single r.1 r.2)
    | PyStruct.stk st =>
        (superimposeList svdf fixed st.arrays ca_only).map
          (fun rs => SupResult.batch (stack (rs.map Prod.fst))
                                     (rs.map Prod.snd))
    | PyStruct.other => Except.error (Err.valueError "Reference must be AtomArray")
  | _ => Except.error (Err.valueError "Reference must be AtomArray")

/-- The local variable `transformed` of `apply_superimposition`: the copy of
`atoms` with `transformation[0]` added, the result right-multiplied by
`transformation[1]`, and `transformation[2]` added. -/
def applyTransformed (atoms : AtomArray) (t : Transfm) : AtomArray :=
  { atoms with
    coord := ((atoms.coord.map (fun p => p + t.t1)).map
                (fun p => vecMulRow p t.rot)).map
              (fun p => p + t.t2) }

/-- The function `apply_superimposition(atoms, transformation)` of the
source: it builds `transformed` with the three in-place updates and then
falls off the end of the function body without a `return` statement, so the
call evaluates to `None`. -/
def apply_superimposition (atoms : AtomArray) (t : Transfm) :
    Option AtomArray :=
  let _transformed := applyTransformed atoms t
  none

/-! ## Helper definitions used only to state and prove properties -/

/-- Matrix times column vector, `∑ j, M i j * z j` in component `i`. -/
def mvMul (M : Mat3) (z : Vec3) : Vec3 :=
  ⟨dot3 M.r0 z, dot3 M.r1 z, dot3 M.r2 z⟩

/-- Quadratic form `zᵀ M z` of a 3×3 matrix. -/
def quad3 (M : Mat3) (z : Vec3) : ℚ :=
  dot3 z (mvMul M z)

/-- The centered point list `_superimpose` builds from a structure when that
structure is both the fixed and the mobile input: the (optionally
Cα-reduced) coordinates with the full-structure centroid subtracted. -/
def centeredSelf (a : AtomArray) (ca_only : Bool) : List Vec3 :=
  (if ca_only then maskCA a else a.coord).map (fun p => p - centroid a)

/-! ## Buffer-level (heap) model for the mutation and aliasing contract

The numpy arrays live in buffers; an atom container holds a reference to its
coordinate buffer.  `mobile.coord[mask]`, `np.copy(...)` and `.copy()`
allocate fresh buffers (the source comments this for the mask case); the
in-place operators `-=`, `+=` and the assignments `fitted_subject.coord = ...`
write through the reference they are applied to.  The heap version of the
worker performs exactly the reads, allocations and writes of the source, in
source order, and returns the final heap next to the Python return value. -/

/-- A heap of coordinate buffers; an address is an index into the list. -/
abbrev Heap : Type := List (List Vec3)

/-- Read the buffer at an address (out-of-range reads never happen in runs
that start from valid references; they default to the empty buffer). -/
def readH (h : Heap) (a : Nat) : List Vec3 :=
  h.getD a []

/-- Allocate a fresh buffer, returning the new heap and the new address. -/
def allocH (h : Heap) (b : List Vec3) : Heap × Nat :=
  (h ++ [b], h.length)

/-- Overwrite the buffer at an existing address. -/
def writeH (h : Heap) (a : Nat) (b : List Vec3) : Heap :=
  h.set a b

/-- An atom container as a reference: the address of its coordinate buffer
plus its (immutable in the code under study) atom-name annotation. -/
structure AtomArrayH where
  coord : Nat
  atom_name : List String
deriving DecidableEq

/-- Heap-level `_superimpose`: the same computation as `_superimpose`, with
every numpy allocation and in-place write made explicit.  Returns the final
heap next to the result; an exception propagates the heap as is. -/
def _superimposeH (svdf : Mat3 → Mat3 × Vec3 × Mat3) (h0 : Heap)
    (fixed mobile : AtomArrayH) (ca_only : Bool) :
    Heap × Except Err (AtomArrayH × Transfm) :=
  let mob_centroid := centroidPts (readH h0 mobile.coord)
  let fix_centroid := centroidPts (readH h0 fixed.coord)
  let am := allocH h0 (if ca_only
    then maskCApts (readH h0 mobile.coord) mobile.atom_name
    else readH h0 mobile.coord)
  let h1 := am.1
  let mobC := am.2
  let af := allocH h1 (if ca_only
    then maskCApts (readH h1 fixed.coord) fixed.atom_name
    else readH h1 fixed.coord)
  let h2 := af.1
  let fixC := af.2
  if (readH h2 mobC).length ≠ (readH h2 fixC).length then
    (h2, Except.error (Err.nameError "BadStructureException"))
  else
    let h3 := writeH h2 mobC ((readH h2 mobC).map (fun p => p - mob_centroid))
    let h4 := writeH h3 fixC ((readH h3 fixC).map (fun p => p - fix_centroid))
    let y := readH h4 mobC
    let x := readH h4 fixC
    let cov := covMatrix y x
    let vsw := svdf cov
    let v := vsw.1
    let w := vsw.2.2
    if det3 v * det3 w < 0 then
      (h4, Except.error Err.indexError)
    else
      let rotation := v * w
      let ac := allocH h4 (readH h4 mobile.coord)
      let h5 := ac.1
      let fitC := ac.2
      let h6 := writeH h5 fitC ((readH h5 fitC).map (fun p => p - mob_centroid))
      let h7 := writeH h6 fitC ((readH h6 fitC).map (fun p => vecMulRow p rotation))
      let h8 := writeH h7 fitC ((readH h7 fitC).map (fun p => p + fix_centroid))
      (h8, Except.ok (⟨fitC, mobile.atom_name⟩,
                      ⟨-mob_centroid, rotation, fix_centroid⟩))

/-- Heap-level `apply_superimposition`: `atoms.copy()` allocates a fresh
coordinate buffer, the three in-place updates write through it, and the
missing `return` makes the Python value `None`. -/
def applyH (h0 : Heap) (atoms : AtomArrayH) (t : Transfm) :
    Heap × Option AtomArrayH :=
  let ac := allocH h0 (readH h0 atoms.coord)
  let h1 := ac.1
  let addr := ac.2
  let h2 := writeH h1 addr ((readH h1 addr).map (fun p => p + t.t1))
  let h3 := writeH h2 addr ((readH h2 addr).map (fun p => vecMulRow p t.rot))
  let h4 := writeH h3 addr ((readH h3 addr).map (fun p => p + t.t2))
  (h4, none)

/-! ## Concrete input data for witnesses and counterexamples -/

/-- A mirrored-pair fixed structure: six Cα atoms at `±e₁, ±2e₂, ±3e₃`. -/
def aC1fix : AtomArray :=
  ⟨List.replicate 6 "A", List.replicate 6 1, List.replicate 6 "GLY",
   List.replicate 6 " CA ", List.replicate 6 "C",
   [⟨1,0,0⟩, ⟨-1,0,0⟩, ⟨0,2,0⟩, ⟨0,-2,0⟩, ⟨0,0,3⟩, ⟨0,0,-3⟩]⟩

/-- The mirror image of `aC1fix` through the `z = 0` plane. -/
def aC1mob : AtomArray :=
  ⟨List.replicate 6 "A", List.replicate 6 1, List.replicate 6 "GLY",
   List.replicate 6 " CA ", List.replicate 6 "C",
   [⟨1,0,0⟩, ⟨-1,0,0⟩, ⟨0,2,0⟩, ⟨0,-2,0⟩, ⟨0,0,-3⟩, ⟨0,0,3⟩]⟩

/-- Left factor of the exact SVD of the mirrored-pair covariance matrix
`diag (2, 8, −18)`. -/
def vC1 : Mat3 := ⟨⟨0,0,1⟩, ⟨0,1,0⟩, ⟨-1,0,0⟩⟩

/-- Singular values of the mirrored-pair covariance matrix, descending. -/
def sC1 : Vec3 := ⟨18,8,2⟩

/-- Right factor of the exact SVD of the mirrored-pair covariance matrix. -/
def wC1 : Mat3 := ⟨⟨0,0,1⟩, ⟨0,1,0⟩, ⟨1,0,0⟩⟩

/-- The covariance matrix `_superimpose` builds for the mirrored pair. -/
def covC1 : Mat3 :=
  covMatrix ((maskCA aC1mob).map (fun p => p - centroid aC1mob))
            ((maskCA aC1fix).map (fun p => p - centroid aC1fix))

/-- SVD oracle answering with the exact mirrored-pair decomposition. -/
def svdC1 : Mat3 → Mat3 × Vec3 × Mat3 := fun _ => (vC1, sC1, wC1)

/-- A two-atom structure whose Cα subset centroid `(0,0,0)` differs from its
full centroid `(1,0,0)`. -/
def aC3 : AtomArray :=
  ⟨["A", "A"], [1, 1], ["GLY", "GLY"], [" CA ", " N  "], ["C", "N"],
   [⟨0,0,0⟩, ⟨2,0,0⟩]⟩

/-- Singular values for the rank-one self covariance of `aC3`. -/
def sC3 : Vec3 := ⟨1,0,0⟩

/-- SVD oracle answering with the exact decomposition `1 ⬝ diag (1,0,0) ⬝ 1`
of the rank-one self covariance of `aC3`. -/
def svdC3 : Mat3 → Mat3 × Vec3 × Mat3 := fun _ => (1, sC3, 1)

/-- A single-Cα-atom fixed structure for the size-mismatch run. -/
def aC4fix : AtomArray :=
  ⟨["A"], [1], ["GLY"], [" CA "], ["C"], [⟨0,0,0⟩]⟩

/-- A two-Cα-atom mobile structure for the size-mismatch run. -/
def aC4mob : AtomArray :=
  ⟨["A", "A"], [1, 2], ["GLY", "GLY"], [" CA ", " CA "], ["C", "C"],
   [⟨0,0,0⟩, ⟨1,0,0⟩]⟩

/-- A trivial SVD oracle (used on runs whose covariance matrix is zero, and
on runs that fail before the SVD is reached): `0 = 1 ⬝ diag 0 ⬝ 1`. -/
def svdTriv : Mat3 → Mat3 × Vec3 × Mat3 := fun _ => (1, 0, 1)

/-- A one-Cα-atom structure sitting at the origin. -/
def aW : AtomArray :=
  ⟨["A"], [1], ["GLY"], [" CA "], ["C"], [⟨0,0,0⟩]⟩

/-- Six Cα atoms at `±e₁, ±2e₂, ±3e₃`: the self covariance `diag (2, 8, 18)`
has distinct positive singular values. -/
def aC7 : AtomArray := aC1fix

/-- Orthogonal factor (the index-reversing permutation) of the exact SVD
`diag (2,8,18) = vC7 ⬝ diag (18,8,2) ⬝ wC7`. -/
def vC7 : Mat3 := ⟨⟨0,0,1⟩, ⟨0,1,0⟩, ⟨1,0,0⟩⟩

/-- Descending singular values of the self covariance of `aC7`. -/
def sC7 : Vec3 := ⟨18,8,2⟩

/-- Right orthogonal factor of the exact SVD of the self covariance of
`aC7` (equal to `vC7`, which is symmetric). -/
def wC7 : Mat3 := ⟨⟨0,0,1⟩, ⟨0,1,0⟩, ⟨1,0,0⟩⟩

/-- SVD oracle answering with the exact self-covariance decomposition of
`aC7`. -/
def svdC7 : Mat3 → Mat3 × Vec3 × Mat3 := fun _ => (vC7, sC7, wC7)

/-- A one-atom structure with no Cα atom. -/
def aC10fix : AtomArray :=
  ⟨["A"], [1], ["GLY"], [" N  "], ["N"], [⟨0,0,0⟩]⟩

/-- A two-atom structure with no Cα atom (more atoms than `aC10fix`). -/
def aC10mob : AtomArray :=
  ⟨["A", "A"], [1, 1], ["GLY", "GLY"], [" O  ", " C  "], ["O", "C"],
   [⟨1,0,0⟩, ⟨3,0,0⟩]⟩

/-- A two-buffer heap for the mutation-contract witness. -/
def h0C8 : Heap := [[⟨0,0,0⟩], [⟨1,1,1⟩]]

/-- Reference to buffer 0 of `h0C8`, one Cα atom. -/
def fixH : AtomArrayH := ⟨0, [" CA "]⟩

/-- Reference to buffer 1 of `h0C8`, one Cα atom. -/
def mobH : AtomArrayH := ⟨1, [" CA "]⟩

/-- The covariance matrix `_superimpose` builds from its inputs. -/
def covOf (fixed mobile : AtomArray) (ca_only : Bool) : Mat3 :=
  covMatrix
    ((if ca_only then maskCA mobile else mobile.coord).map
      (fun p => p - centroid mobile))
    ((if ca_only then maskCA fixed else fixed.coord).map
      (fun p => p - centroid fixed))

/-! ## Componentwise matrix algebra -/

theorem vec3_ext {a b : Vec3} (hx : a.x = b.x) (hy : a.y = b.y)
    (hz : a.z = b.z) : a = b := by
  obtain ⟨_, _, _⟩ := a; obtain ⟨_, _, _⟩ := b
  simp only [Vec3.mk.injEq]
  exact ⟨hx, hy, hz⟩

theorem mat3_ext {A B : Mat3} (h0 : A.r0 = B.r0) (h1 : A.r1 = B.r1)
    (h2 : A.r2 = B.r2) : A = B := by
  obtain ⟨_, _, _⟩ := A; obtain ⟨_, _, _⟩ := B
  simp only [Mat3.mk.injEq]
  exact ⟨h0, h1, h2⟩

theorem transpose3_mul (A B : Mat3) :
    transpose3 (A * B) = transpose3 B * transpose3 A := by
  obtain ⟨⟨_, _, _⟩, ⟨_, _, _⟩, ⟨_, _, _⟩⟩ := A
  obtain ⟨⟨_, _, _⟩, ⟨_, _, _⟩, ⟨_, _, _⟩⟩ := B
  simp only [mulM_def, transpose3, vecMulRow, Vec3.scale, add3_def,
    Mat3.mk.injEq, Vec3.mk.injEq]
  and_intros <;> ring

theorem transpose3_diag3 (s : Vec3) : transpose3 (diag3 s) = diag3 s := rfl

theorem transpose3_add (A B : Mat3) :
    transpose3 (A + B) = transpose3 A + transpose3 B := by
  simp only [addM_def, transpose3, add3_def, Mat3.mk.injEq, Vec3.mk.injEq]

theorem transpose3_zero : transpose3 0 = 0 := rfl

theorem transpose3_outer3_self (a : Vec3) :
    transpose3 (outer3 a a) = outer3 a a := by
  simp only [transpose3, outer3, Vec3.scale, Mat3.mk.injEq, Vec3.mk.injEq]
  and_intros <;> ring

theorem det3_transpose (A : Mat3) : det3 (transpose3 A) = det3 A := by
  obtain ⟨⟨_, _, _⟩, ⟨_, _, _⟩, ⟨_, _, _⟩⟩ := A
  simp only [det3, transpose3]
  ring

theorem det3_mul (A B : Mat3) : det3 (A * B) = det3 A * det3 B := by
  obtain ⟨⟨_, _, _⟩, ⟨_, _, _⟩, ⟨_, _, _⟩⟩ := A
  obtain ⟨⟨_, _, _⟩, ⟨_, _, _⟩, ⟨_, _, _⟩⟩ := B
  simp only [det3, mulM_def, vecMulRow, Vec3.scale, add3_def]
  ring

theorem det3_one : det3 1 = 1 := by
  simp only [oneM_def, det3]
  norm_num

theorem det3_orth (v : Mat3) (h : v * transpose3 v = 1) :
    det3 v * det3 v = 1 := by
  have hd := congrArg det3 h
  rw [det3_mul, det3_transpose, det3_one] at hd
  exact hd

theorem vecMulRow_one (p : Vec3) : vecMulRow p 1 = p := by
  obtain ⟨_, _, _⟩ := p
  simp only [oneM_def, vecMulRow, Vec3.scale, add3_def, Vec3.mk.injEq]
  and_intros <;> ring

theorem mul_diag3_eq (A : Mat3) (d : Vec3) :
    A * diag3 d = ⟨⟨A.r0.x * d.x, A.r0.y * d.y, A.r0.z * d.z⟩,
                   ⟨A.r1.x * d.x, A.r1.y * d.y, A.r1.z * d.z⟩,
                   ⟨A.r2.x * d.x, A.r2.y * d.y, A.r2.z * d.z⟩⟩ := by
  simp only [mulM_def, diag3, vecMulRow, Vec3.scale, add3_def,
    Mat3.mk.injEq, Vec3.mk.injEq]
  and_intros <;> ring

theorem diag3_mul_eq (d : Vec3) (A : Mat3) :
    diag3 d * A = ⟨⟨d.x * A.r0.x, d.x * A.r0.y, d.x * A.r0.z⟩,
                   ⟨d.y * A.r1.x, d.y * A.r1.y, d.y * A.r1.z⟩,
                   ⟨d.z * A.r2.x, d.z * A.r2.y, d.z * A.r2.z⟩⟩ := by
  simp only [mulM_def, diag3, vecMulRow, Vec3.scale, add3_def,
    Mat3.mk.injEq, Vec3.mk.injEq]
  and_intros <;> ring

theorem diag3_mul_diag3 (s : Vec3) :
    diag3 s * diag3 s = diag3 ⟨s.x * s.x, s.y * s.y, s.z * s.z⟩ := by
  simp only [mulM_def, diag3, vecMulRow, Vec3.scale, add3_def,
    Mat3.mk.injEq, Vec3.mk.injEq]
  and_intros <;> ring

theorem mul_t3_self_00 (A : Mat3) :
    (A * transpose3 A).r0.x
      = A.r0.x * A.r0.x + A.r0.y * A.r0.y + A.r0.z * A.r0.z := by
  simp only [mulM_def, transpose3, vecMulRow, Vec3.scale, add3_def]

theorem mul_t3_self_11 (A : Mat3) :
    (A * transpose3 A).r1.y
      = A.r1.x * A.r1.x + A.r1.y * A.r1.y + A.r1.z * A.r1.z := by
  simp only [mulM_def, transpose3, vecMulRow, Vec3.scale, add3_def]

theorem mul_t3_self_22 (A : Mat3) :
    (A * transpose3 A).r2.z
      = A.r2.x * A.r2.x + A.r2.y * A.r2.y + A.r2.z * A.r2.z := by
  simp only [mulM_def, transpose3, vecMulRow, Vec3.scale, add3_def]

theorem conj_diag_x (A M : Mat3) :
    (transpose3 A * M * A).r0.x = quad3 M ⟨A.r0.x, A.r1.x, A.r2.x⟩ := by
  obtain ⟨⟨_, _, _⟩, ⟨_, _, _⟩, ⟨_, _, _⟩⟩ := A
  obtain ⟨⟨_, _, _⟩, ⟨_, _, _⟩, ⟨_, _, _⟩⟩ := M
  simp only [mulM_def, transpose3, vecMulRow, Vec3.scale, add3_def,
    quad3, mvMul, dot3]
  ring

theorem conj_diag_y (A M : Mat3) :
    (transpose3 A * M * A).r1.y = quad3 M ⟨A.r0.y, A.r1.y, A.r2.y⟩ := by
  obtain ⟨⟨_, _, _⟩, ⟨_, _, _⟩, ⟨_, _, _⟩⟩ := A
  obtain ⟨⟨_, _, _⟩, ⟨_, _, _⟩, ⟨_, _, _⟩⟩ := M
  simp only [mulM_def, transpose3, vecMulRow, Vec3.scale, add3_def,
    quad3, mvMul, dot3]
  ring

theorem conj_diag_z (A M : Mat3) :
    (transpose3 A * M * A).r2.z = quad3 M ⟨A.r0.z, A.r1.z, A.r2.z⟩ := by
  obtain ⟨⟨_, _, _⟩, ⟨_, _, _⟩, ⟨_, _, _⟩⟩ := A
  obtain ⟨⟨_, _, _⟩, ⟨_, _, _⟩, ⟨_, _, _⟩⟩ := M
  simp only [mulM_def, transpose3, vecMulRow, Vec3.scale, add3_def,
    quad3, mvMul, dot3]
  ring

/-! ## The self covariance matrix is symmetric and positive semidefinite -/

theorem covMatrix_self_cons (a : Vec3) (t : List Vec3) :
    covMatrix (a :: t) (a :: t) = outer3 a a + covMatrix t t := by
  simp [covMatrix, outer3, Vec3.scale, addM_def, add3_def, List.sum_cons]

theorem covMatrix_self_symm (y : List Vec3) :
    transpose3 (covMatrix y y) = covMatrix y y := by
  induction y with
  | nil => rfl
  | cons a t ih =>
      rw [covMatrix_self_cons, transpose3_add, transpose3_outer3_self, ih]

theorem quad3_add (A B : Mat3) (z : Vec3) :
    quad3 (A + B) z = quad3 A z + quad3 B z := by
  obtain ⟨⟨_, _, _⟩, ⟨_, _, _⟩, ⟨_, _, _⟩⟩ := A
  obtain ⟨⟨_, _, _⟩, ⟨_, _, _⟩, ⟨_, _, _⟩⟩ := B
  simp only [addM_def, add3_def, quad3, mvMul, dot3]
  ring

theorem quad3_zero (z : Vec3) : quad3 0 z = 0 := by
  simp only [zeroM_def, zero3_def, quad3, mvMul, dot3]
  ring

theorem quad3_outer3_self (a z : Vec3) :
    quad3 (outer3 a a) z = dot3 a z * dot3 a z := by
  obtain ⟨_, _, _⟩ := a; obtain ⟨_, _, _⟩ := z
  simp only [outer3, Vec3.scale, quad3, mvMul, dot3]
  ring

theorem quad3_covMatrix_self_nonneg (y : List Vec3) (z : Vec3) :
    0 ≤ quad3 (covMatrix y y) z := by
  induction y with
  | nil => rw [show covMatrix [] [] = 0 from rfl, quad3_zero]
  | cons a t ih =>
      rw [covMatrix_self_cons, quad3_add, quad3_outer3_self]
      exact add_nonneg (mul_self_nonneg _) ih

/-- Core uniqueness argument behind self-alignment: whenever `cov` is
symmetric and positive semidefinite and `(v, s, w)` is any valid SVD of it
with pairwise distinct, strictly positive singular values, the product
`v ⬝ w` is the identity. -/
theorem rotation_one_of_svd_symm (cov v : Mat3) (s : Vec3) (w : Mat3)
    (hsvd : IsSVD cov v s w)
    (hsym : transpose3 cov = cov)
    (hpsd : ∀ z : Vec3, 0 ≤ quad3 cov z)
    (h01 : s.y < s.x) (h12 : s.z < s.y) (h2 : 0 < s.z) :
    v * w = 1 := by
  obtain ⟨hv1, hv2, hw1, hw2, hC, -, -, -⟩ := hsvd
  have step1 : cov * transpose3 cov
      = v * (diag3 s * (diag3 s * transpose3 v)) := by
    rw [hC, transpose3_mul, transpose3_mul, transpose3_diag3]
    calc (v * diag3 s * w) * (transpose3 w * (diag3 s * transpose3 v))
        = v * (diag3 s * ((w * transpose3 w) * (diag3 s * transpose3 v))) := by
          simp only [mul_assoc]
      _ = v * (diag3 s * (diag3 s * transpose3 v)) := by rw [hw1, one_mul]
  have step2 : transpose3 cov * cov
      = transpose3 w * (diag3 s * (diag3 s * w)) := by
    rw [hC, transpose3_mul, transpose3_mul, transpose3_diag3]
    calc (transpose3 w * (diag3 s * transpose3 v)) * (v * diag3 s * w)
        = transpose3 w * (diag3 s * ((transpose3 v * v) * (diag3 s * w))) := by
          simp only [mul_assoc]
      _ = transpose3 w * (diag3 s * (diag3 s * w)) := by rw [hv2, one_mul]
  have key : v * (diag3 s * (diag3 s * transpose3 v))
      = transpose3 w * (diag3 s * (diag3 s * w)) := by
    rw [← step1, ← step2, hsym]
  have hB : (w * v) * (diag3 s * diag3 s)
      = (diag3 s * diag3 s) * (w * v) := by
    have e1 : w * (v * (diag3 s * (diag3 s * transpose3 v))) * v
        = (w * v) * (diag3 s * diag3 s) := by
      calc w * (v * (diag3 s * (diag3 s * transpose3 v))) * v
          = (w * v) * ((diag3 s * diag3 s) * (transpose3 v * v)) := by
            simp only [mul_assoc]
        _ = (w * v) * (diag3 s * diag3 s) := by rw [hv2, mul_one]
    have e2 : w * (transpose3 w * (diag3 s * (diag3 s * w))) * v
        = (diag3 s * diag3 s) * (w * v) := by
      calc w * (transpose3 w * (diag3 s * (diag3 s * w))) * v
          = (w * transpose3 w) * ((diag3 s * diag3 s) * (w * v)) := by
            simp only [mul_assoc]
        _ = (diag3 s * diag3 s) * (w * v) := by rw [hw1, one_mul]
    rw [← e1, ← e2, key]
  rw [diag3_mul_diag3, mul_diag3_eq, diag3_mul_eq] at hB
  simp only [Mat3.mk.injEq, Vec3.mk.injEq] at hB
  obtain ⟨⟨b00, b01, b02⟩, ⟨b10, b11, b12⟩, ⟨b20, b21, b22⟩⟩ := hB
  clear step1 step2 key
  have hsx : 0 < s.x := by linarith
  have hsy : 0 < s.y := by linarith
  have hxy : s.y * s.y < s.x * s.x :=
    mul_self_lt_mul_self (le_of_lt hsy) h01
  have hyz : s.z * s.z < s.y * s.y :=
    mul_self_lt_mul_self (le_of_lt h2) h12
  have hxz : s.z * s.z < s.x * s.x :=
    mul_self_lt_mul_self (le_of_lt h2) (lt_trans h12 h01)
  have n01 : (w * v).r0.y = 0 := by
    have h4 : (w * v).r0.y * (s.y * s.y - s.x * s.x) = 0 := by
      linear_combination b01
    rcases mul_eq_zero.mp h4 with h5 | h5
    · exact h5
    · exact absurd h5 (sub_ne_zero.mpr (ne_of_lt hxy))
  have n02 : (w * v).r0.z = 0 := by
    have h4 : (w * v).r0.z * (s.z * s.z - s.x * s.x) = 0 := by
      linear_combination b02
    rcases mul_eq_zero.mp h4 with h5 | h5
    · exact h5
    · exact absurd h5 (sub_ne_zero.mpr (ne_of_lt hxz))
  have n10 : (w * v).r1.x = 0 := by
    have h4 : (w * v).r1.x * (s.x * s.x - s.y * s.y) = 0 := by
      linear_combination b10
    rcases mul_eq_zero.mp h4 with h5 | h5
    · exact h5
    · exact absurd h5 (sub_ne_zero.mpr (ne_of_gt hxy))
  have n12 : (w * v).r1.z = 0 := by
    have h4 : (w * v).r1.z * (s.z * s.z - s.y * s.y) = 0 := by
      linear_combination b12
    rcases mul_eq_zero.mp h4 with h5 | h5
    · exact h5
    · exact absurd h5 (sub_ne_zero.mpr (ne_of_lt hyz))
  have n20 : (w * v).r2.x = 0 := by
    have h4 : (w * v).r2.x * (s.x * s.x - s.z * s.z) = 0 := by
      linear_combination b20
    rcases mul_eq_zero.mp h4 with h5 | h5
    · exact h5
    · exact absurd h5 (sub_ne_zero.mpr (ne_of_gt hxz))
  have n21 : (w * v).r2.y = 0 := by
    have h4 : (w * v).r2.y * (s.y * s.y - s.z * s.z) = 0 := by
      linear_combination b21
    rcases mul_eq_zero.mp h4 with h5 | h5
    · exact h5
    · exact absurd h5 (sub_ne_zero.mpr (ne_of_gt hyz))
  have hNO : (w * v) * transpose3 (w * v) = 1 := by
    rw [transpose3_mul]
    calc (w * v) * (transpose3 v * transpose3 w)
        = w * ((v * transpose3 v) * transpose3 w) := by simp only [mul_assoc]
      _ = w * transpose3 w := by rw [hv1, one_mul]
      _ = 1 := hw1
  have d00 : ((w * v) * transpose3 (w * v)).r0.x = (1 : Mat3).r0.x := by
    rw [hNO]
  have d11 : ((w * v) * transpose3 (w * v)).r1.y = (1 : Mat3).r1.y := by
    rw [hNO]
  have d22 : ((w * v) * transpose3 (w * v)).r2.z = (1 : Mat3).r2.z := by
    rw [hNO]
  rw [mul_t3_self_00, n01, n02] at d00
  rw [mul_t3_self_11, n10, n12] at d11
  rw [mul_t3_self_22, n20, n21] at d22
  simp only [oneM_def] at d00 d11 d22
  have sq00 : (w * v).r0.x * (w * v).r0.x = 1 := by linear_combination d00
  have sq11 : (w * v).r1.y * (w * v).r1.y = 1 := by linear_combination d11
  have sq22 : (w * v).r2.z * (w * v).r2.z = 1 := by linear_combination d22
  have hDN : transpose3 v * cov * v = diag3 s * (w * v) := by
    rw [hC]
    calc transpose3 v * (v * diag3 s * w) * v
        = (transpose3 v * v) * (diag3 s * (w * v)) := by simp only [mul_assoc]
      _ = diag3 s * (w * v) := by rw [hv2, one_mul]
  have q00 : quad3 cov ⟨v.r0.x, v.r1.x, v.r2.x⟩ = s.x * (w * v).r0.x := by
    have h6 : (transpose3 v * cov * v).r0.x = (diag3 s * (w * v)).r0.x := by
      rw [hDN]
    rw [conj_diag_x, diag3_mul_eq] at h6
    exact h6
  have q11 : quad3 cov ⟨v.r0.y, v.r1.y, v.r2.y⟩ = s.y * (w * v).r1.y := by
    have h6 : (transpose3 v * cov * v).r1.y = (diag3 s * (w * v)).r1.y := by
      rw [hDN]
    rw [conj_diag_y, diag3_mul_eq] at h6
    exact h6
  have q22 : quad3 cov ⟨v.r0.z, v.r1.z, v.r2.z⟩ = s.z * (w * v).r2.z := by
    have h6 : (transpose3 v * cov * v).r2.z = (diag3 s * (w * v)).r2.z := by
      rw [hDN]
    rw [conj_diag_z, diag3_mul_eq] at h6
    exact h6
  have p00 : 0 ≤ s.x * (w * v).r0.x := q00 ▸ hpsd ⟨v.r0.x, v.r1.x, v.r2.x⟩
  have p11 : 0 ≤ s.y * (w * v).r1.y := q11 ▸ hpsd ⟨v.r0.y, v.r1.y, v.r2.y⟩
  have p22 : 0 ≤ s.z * (w * v).r2.z := q22 ▸ hpsd ⟨v.r0.z, v.r1.z, v.r2.z⟩
  have nn00 : 0 ≤ (w * v).r0.x := (mul_nonneg_iff_of_pos_left hsx).mp p00
  have nn11 : 0 ≤ (w * v).r1.y := (mul_nonneg_iff_of_pos_left hsy).mp p11
  have nn22 : 0 ≤ (w * v).r2.z := (mul_nonneg_iff_of_pos_left h2).mp p22
  have e00 : (w * v).r0.x = 1 := by
    have h4 : ((w * v).r0.x - 1) * ((w * v).r0.x + 1) = 0 := by
      linear_combination sq00
    rcases mul_eq_zero.mp h4 with h5 | h5
    · linarith
    · linarith
  have e11 : (w * v).r1.y = 1 := by
    have h4 : ((w * v).r1.y - 1) * ((w * v).r1.y + 1) = 0 := by
      linear_combination sq11
    rcases mul_eq_zero.mp h4 with h5 | h5
    · linarith
    · linarith
  have e22 : (w * v).r2.z = 1 := by
    have h4 : ((w * v).r2.z - 1) * ((w * v).r2.z + 1) = 0 := by
      linear_combination sq22
    rcases mul_eq_zero.mp h4 with h5 | h5
    · linarith
    · linarith
  have hN : w * v = 1 := by
    apply mat3_ext <;> apply vec3_ext <;> simp only [oneM_def] <;> assumption
  calc v * w = (v * w) * (v * transpose3 v) := by rw [hv1, mul_one]
    _ = v * ((w * v) * transpose3 v) := by simp only [mul_assoc]
    _ = v * transpose3 v := by rw [hN, one_mul]
    _ = 1 := hv1

/-! ## Unfolding the worker -/

/-- Closed form of `_superimpose`: the size check, then the reflection-guard
crash, then the fitted copy and the transformation triple. -/
theorem _superimpose_unfold (svdf : Mat3 → Mat3 × Vec3 × Mat3)
    (fixed mobile : AtomArray) (ca_only : Bool) :
    _superimpose svdf fixed mobile ca_only =
      if (if ca_only then maskCA mobile else mobile.coord).length
          ≠ (if ca_only then maskCA fixed else fixed.coord).length then
        Except.error (Err.nameError "BadStructureException")
      else if det3 (svdf (covOf fixed mobile ca_only)).1
          * det3 (svdf (covOf fixed mobile ca_only)).2.2 < 0 then
        Except.error Err.indexError
      else
        Except.ok
          ({ mobile with
              coord := ((mobile.coord.map (fun p => p - centroid mobile)).map
                  (fun p => vecMulRow p
                    ((svdf (covOf fixed mobile ca_only)).1
                      * (svdf (covOf fixed mobile ca_only)).2.2))).map
                (fun p => p + centroid fixed) },
           ⟨-(centroid mobile),
            (svdf (covOf fixed mobile ca_only)).1
              * (svdf (covOf fixed mobile ca_only)).2.2,
            centroid fixed⟩) := rfl

/-- Inversion of a successful `_superimpose` run: what the fitted copy and
the transformation triple must be. -/
theorem _superimpose_ok (svdf : Mat3 → Mat3 × Vec3 × Mat3)
    (fixed mobile : AtomArray) (ca_only : Bool) (f : AtomArray) (t : Transfm)
    (h : _superimpose svdf fixed mobile ca_only = Except.ok (f, t)) :
    f = { mobile with
            coord := ((mobile.coord.map (fun p => p - centroid mobile)).map
                (fun p => vecMulRow p
                  ((svdf (covOf fixed mobile ca_only)).1
                    * (svdf (covOf fixed mobile ca_only)).2.2))).map
              (fun p => p + centroid fixed) }
      ∧ t = ⟨-(centroid mobile),
             (svdf (covOf fixed mobile ca_only)).1
               * (svdf (covOf fixed mobile ca_only)).2.2,
             centroid fixed⟩ := by
  rw [_superimpose_unfold] at h
  by_cases h1 : (if ca_only then maskCA mobile else mobile.coord).length
      ≠ (if ca_only then maskCA fixed else fixed.coord).length
  · rw [if_pos h1] at h
    exact Except.noConfusion h
  · rw [if_neg h1] at h
    by_cases h2 : det3 (svdf (covOf fixed mobile ca_only)).1
        * det3 (svdf (covOf fixed mobile ca_only)).2.2 < 0
    · rw [if_pos h2] at h
      exact Except.noConfusion h
    · rw [if_neg h2] at h
      simp only [Except.ok.injEq, Prod.mk.injEq] at h
      exact ⟨h.1.symm, h.2.symm⟩

/-- Whenever the worker returns at all, the rotation it returns is proper:
its determinant is exactly `+1` (for any SVD triple meeting the numpy
contract). -/
theorem det3_rot_of_ok (svdf : Mat3 → Mat3 × Vec3 × Mat3)
    (fixed mobile : AtomArray) (ca_only : Bool) (f : AtomArray) (t : Transfm)
    (v : Mat3) (s : Vec3) (w : Mat3)
    (hor : svdf (covOf fixed mobile ca_only) = (v, s, w))
    (hsvd : IsSVD (covOf fixed mobile ca_only) v s w)
    (h : _superimpose svdf fixed mobile ca_only = Except.ok (f, t)) :
    det3 t.rot = 1 := by
  obtain ⟨hv1, -, hw1, -, -, -, -, -⟩ := hsvd
  rw [_superimpose_unfold] at h
  by_cases h1 : (if ca_only then maskCA mobile else mobile.coord).length
      ≠ (if ca_only then maskCA fixed else fixed.coord).length
  · rw [if_pos h1] at h
    exact Except.noConfusion h
  · rw [if_neg h1] at h
    by_cases h2 : det3 (svdf (covOf fixed mobile ca_only)).1
        * det3 (svdf (covOf fixed mobile ca_only)).2.2 < 0
    · rw [if_pos h2] at h
      exact Except.noConfusion h
    · rw [if_neg h2] at h
      simp only [Except.ok.injEq, Prod.mk.injEq] at h
      have ht : t.rot = v * w := by
        rw [← h.2]
        simp only [hor]
      rw [ht, det3_mul]
      have dv := det3_orth v hv1
      have dw := det3_orth w hw1
      rw [hor] at h2
      simp only [not_lt] at h2
      have hsq : (det3 v * det3 w) * (det3 v * det3 w) = 1 := by
        calc (det3 v * det3 w) * (det3 v * det3 w)
            = (det3 v * det3 v) * (det3 w * det3 w) := by ring
          _ = 1 := by rw [dv, dw]; norm_num
      have h4 : (det3 v * det3 w - 1) * (det3 v * det3 w + 1) = 0 := by
        linear_combination hsq
      rcases mul_eq_zero.mp h4 with h5 | h5
      · linarith
      · linarith

/-! ## The batch loop -/

/-- Inversion of a successful batch loop: as many results as inputs, and the
result at every index is the worker run on the input at that index. -/
theorem superimposeList_ok (svdf : Mat3 → Mat3 × Vec3 × Mat3)
    (fixed : AtomArray) (ca_only : Bool) :
    ∀ (ms : List AtomArray) (rs : List (AtomArray × Transfm)),
      superimposeList svdf fixed ms ca_only = Except.ok rs →
      rs.length = ms.length ∧
        ∀ i (hi : i < ms.length) (hr : i < rs.length),
          _superimpose svdf fixed (ms.get ⟨i, hi⟩) ca_only
            = Except.ok (rs.get ⟨i, hr⟩) := by
  intro ms
  induction ms with
  | nil =>
      intro rs h
      simp only [superimposeList, Except.ok.injEq] at h
      subst h
      exact ⟨rfl, fun i hi => absurd hi (Nat.not_lt_zero i)⟩
  | cons m rest ih =>
      intro rs h
      rw [superimposeList] at h
      cases hm : _superimpose svdf fixed m ca_only with
      | error e =>
          rw [hm] at h
          exact Except.noConfusion h
      | ok r =>
          rw [hm] at h
          cases hrest : superimposeList svdf fixed rest ca_only with
          | error e =>
              rw [hrest] at h
              exact Except.noConfusion h
          | ok rs2 =>
              rw [hrest] at h
              have h3 : r :: rs2 = rs := Except.ok.inj h
              subst h3
              obtain ⟨hlen, hidx⟩ := ih rs2 hrest
              refine ⟨by simpa using hlen, ?_⟩
              intro i hi hr
              cases i with
              | zero => simpa using hm
              | succ j =>
                  have hj : j < rest.length := Nat.lt_of_succ_lt_succ hi
                  have hj2 : j < rs2.length := Nat.lt_of_succ_lt_succ hr
                  simpa using hidx j hj hj2

/-! ## Empty landmark masks -/

/-- If no atom name passes the Cα test, the mask selects nothing. -/
theorem maskCApts_eq_nil (pts : List Vec3) (names : List String)
    (h : ∀ n ∈ names, n ≠ " CA ") : maskCApts pts names = [] := by
  rw [maskCApts, List.filterMap_eq_nil_iff]
  intro pn hpn
  have h2 := List.of_mem_zip hpn
  simp only [if_neg (h pn.2 h2.2)]

/-! ## Heap reasoning: the worker only writes buffers it allocated itself -/

theorem readH_alloc_lt (h : Heap) (b : List Vec3) (a : Nat) (ha : a < h.length) :
    readH (h ++ [b]) a = readH h a := by
  rw [readH, readH, List.getD_eq_getElem?_getD, List.getD_eq_getElem?_getD,
    List.getElem?_append_left ha]

theorem readH_set_ne (h : Heap) (i : Nat) (b : List Vec3) (a : Nat) (ha : a ≠ i) :
    readH (h.set i b) a = readH h a := by
  rw [readH, readH, List.getD_eq_getElem?_getD, List.getD_eq_getElem?_getD,
    List.getElem?_set_ne (Ne.symm ha)]

/-- Heap `h'` extends heap `h`: it is at least as long and agrees with `h`
on every address of `h`. -/
def HeapExt (h h' : Heap) : Prop :=
  h.length ≤ h'.length ∧ ∀ a, a < h.length → readH h' a = readH h a

theorem heapExt_refl (h : Heap) : HeapExt h h :=
  ⟨le_refl _, fun _ _ => rfl⟩

theorem heapExt_trans {h1 h2 h3 : Heap} (e12 : HeapExt h1 h2) (e23 : HeapExt h2 h3) :
    HeapExt h1 h3 :=
  ⟨le_trans e12.1 e23.1,
   fun a ha => (e23.2 a (lt_of_lt_of_le ha e12.1)).trans (e12.2 a ha)⟩

theorem heapExt_alloc {h0 h : Heap} (e : HeapExt h0 h) (b : List Vec3) :
    HeapExt h0 (allocH h b).1 := by
  refine heapExt_trans e ⟨?_, ?_⟩
  · simp [allocH]
  · intro a ha
    exact readH_alloc_lt h b a ha

theorem heapExt_write {h0 h : Heap} (e : HeapExt h0 h) (i : Nat)
    (hi : h0.length ≤ i) (b : List Vec3) : HeapExt h0 (writeH h i b) := by
  constructor
  · simpa [writeH] using e.1
  · intro a ha
    rw [writeH, readH_set_ne h i b a (Nat.ne_of_lt (lt_of_lt_of_le ha hi))]
    exact e.2 a ha

theorem heapExt_le_length {h0 h : Heap} (e : HeapExt h0 h) :
    h0.length ≤ h.length :=
  e.1

/-- The final heap of a heap-level worker run extends the initial heap: no
preexisting buffer (in particular neither input) is ever written. -/
theorem _superimposeH_ext (svdf : Mat3 → Mat3 × Vec3 × Mat3) (h0 : Heap)
    (fixed mobile : AtomArrayH) (ca_only : Bool) :
    HeapExt h0 (_superimposeH svdf h0 fixed mobile ca_only).1 := by
  unfold _superimposeH
  dsimp only
  split
  case isTrue =>
      split
      · exact heapExt_alloc (heapExt_alloc (heapExt_refl h0) _) _
      · split
        · apply heapExt_write
          · apply heapExt_write
            · exact heapExt_alloc (heapExt_alloc (heapExt_refl h0) _) _
            · simp [allocH]
          · simp [allocH]
        · apply heapExt_write
          · apply heapExt_write
            · apply heapExt_write
              · apply heapExt_alloc
                apply heapExt_write
                · apply heapExt_write
                  · exact heapExt_alloc (heapExt_alloc (heapExt_refl h0) _) _
                  · simp [allocH]
                · simp [allocH]
              · apply heapExt_le_length
                apply heapExt_write
                · apply heapExt_write
                  · exact heapExt_alloc (heapExt_alloc (heapExt_refl h0) _) _
                  · simp [allocH]
                · simp [allocH]
            · apply heapExt_le_length
              apply heapExt_write
              · apply heapExt_write
                · exact heapExt_alloc (heapExt_alloc (heapExt_refl h0) _) _
                · simp [allocH]
              · simp [allocH]
          · apply heapExt_le_length
            apply heapExt_write
            · apply heapExt_write
              · exact heapExt_alloc (heapExt_alloc (heapExt_refl h0) _) _
              · simp [allocH]
            · simp [allocH]
  case isFalse =>
      split
      · exact heapExt_alloc (heapExt_alloc (heapExt_refl h0) _) _
      · split
        · apply heapExt_write
          · apply heapExt_write
            · exact heapExt_alloc (heapExt_alloc (heapExt_refl h0) _) _
            · simp [allocH]
          · simp [allocH]
        · apply heapExt_write
          · apply heapExt_write
            · apply heapExt_write
              · apply heapExt_alloc
                apply heapExt_write
                · apply heapExt_write
                  · exact heapExt_alloc (heapExt_alloc (heapExt_refl h0) _) _
                  · simp [allocH]
                · simp [allocH]
              · apply heapExt_le_length
                apply heapExt_write
                · apply heapExt_write
                  · exact heapExt_alloc (heapExt_alloc (heapExt_refl h0) _) _
                  · simp [allocH]
                · simp [allocH]
            · apply heapExt_le_length
              apply heapExt_write
              · apply heapExt_write
                · exact heapExt_alloc (heapExt_alloc (heapExt_refl h0) _) _
                · simp [allocH]
              · simp [allocH]
          · apply heapExt_le_length
            apply heapExt_write
            · apply heapExt_write
              · exact heapExt_alloc (heapExt_alloc (heapExt_refl h0) _) _
              · simp [allocH]
            · simp [allocH]

/-- The final heap of a heap-level replay run extends the initial heap. -/
theorem applyH_ext (h0 : Heap) (atoms : AtomArrayH) (t : Transfm) :
    HeapExt h0 (applyH h0 atoms t).1 := by
  unfold applyH
  dsimp only
  apply heapExt_write
  · apply heapExt_write
    · apply heapExt_write
      · exact heapExt_alloc (heapExt_refl h0) _
      · simp [allocH]
    · simp [allocH]
  · simp [allocH]

/-- The fitted container a successful heap-level run returns references a
buffer allocated during the run, never a preexisting address. -/
theorem _superimposeH_fresh (svdf : Mat3 → Mat3 × Vec3 × Mat3) (h0 : Heap)
    (fixed mobile : AtomArrayH) (ca_only : Bool) (f : AtomArrayH) (t : Transfm)
    (h : (_superimposeH svdf h0 fixed mobile ca_only).2 = Except.ok (f, t)) :
    h0.length ≤ f.coord := by
  unfold _superimposeH at h
  dsimp only at h
  split at h
  case isTrue =>
      split at h
      · exact Except.noConfusion h
      · split at h
        · exact Except.noConfusion h
        · have h2 := Except.ok.inj h
          have h3 : f.coord = _ := congrArg AtomArrayH.coord (congrArg Prod.fst h2).symm
          rw [h3]
          apply heapExt_le_length
          apply heapExt_write
          · apply heapExt_write
            · exact heapExt_alloc (heapExt_alloc (heapExt_refl h0) _) _
            · simp [allocH]
          · simp [allocH]
  case isFalse =>
      split at h
      · exact Except.noConfusion h
      · split at h
        · exact Except.noConfusion h
        · have h2 := Except.ok.inj h
          have h3 : f.coord = _ := congrArg AtomArrayH.coord (congrArg Prod.fst h2).symm
          rw [h3]
          apply heapExt_le_length
          apply heapExt_write
          · apply heapExt_write
            · exact heapExt_alloc (heapExt_alloc (heapExt_refl h0) _) _
            · simp [allocH]
          · simp [allocH]

/-- Claim C1 (code bug): on a deliberately mirrored input pair the exact SVD
of the covariance matrix `diag (2, 8, −18)` has `det(v)·det(w) = −1 < 0`, so
the reflection guard engages; the engaged guard executes `s[-1,:] *= -1` on
the 1-D singular-value array and the call raises `IndexError` instead of
returning a proper rotation. -/
theorem guard_input_crashes_indexError :
    IsSVD covC1 vC1 sC1 wC1 ∧ det3 vC1 * det3 wC1 < 0 ∧
      _superimpose svdC1 aC1fix aC1mob true = Except.error Err.indexError := by
  refine ⟨?_, ?_, ?_⟩
  · unfold IsSVD covC1
    norm_num [covMatrix, maskCA, maskCApts, centroid, centroidPts, aC1fix, aC1mob,
      outer3, Vec3.scale, sub3_def, add3_def, zero3_def, zeroM_def, addM_def,
      List.replicate, List.filterMap_cons, List.sum_cons, List.sum_nil,
      vC1, sC1, wC1, transpose3, diag3, mulM_def, vecMulRow, oneM_def]
    all_goals rfl
  · norm_num [det3, vC1, wC1]
  · norm_num [_superimpose, centroid, centroidPts, maskCA, maskCApts, covMatrix, det3,
      aC1fix, aC1mob, svdC1, vC1, wC1, sC1, outer3, Vec3.scale, sub3_def, add3_def,
      zero3_def, zeroM_def, addM_def, List.replicate, List.filterMap_cons,
      List.sum_cons, List.sum_nil]

/-- Claim C2 (code bug): `apply_superimposition` builds the transformed copy
but falls off the end of the function without a `return` statement, so every
call returns `None` rather than the fitted coordinate set. -/
theorem apply_superimposition_returns_none (atoms : AtomArray) (t : Transfm) :
    apply_superimposition atoms t = none := rfl

/-- Claim C3, counterexample: on a structure whose Cα-subset centroid
`(0,0,0)` differs from its full centroid `(1,0,0)`, a successful run returns
`T1 = (−1,0,0)`, the negated FULL centroid — not the negated landmark
centroid `(0,0,0)` — and the centered landmark set sums to `(−1,0,0) ≠ 0`,
so it is not zero-mean. -/
theorem reduced_centroid_claim_false :
    IsSVD (covOf aC3 aC3 true) 1 sC3 1 ∧
      _superimpose svdC3 aC3 aC3 true
        = Except.ok (aC3, ⟨⟨-1,0,0⟩, 1, ⟨1,0,0⟩⟩) ∧
      centroidPts (maskCA aC3) = ⟨0,0,0⟩ ∧
      (⟨-1,0,0⟩ : Vec3) ≠ -centroidPts (maskCA aC3) ∧
      ((maskCA aC3).map (fun p => p - centroid aC3)).sum ≠ ⟨0,0,0⟩ := by
  have hm : maskCA aC3 = [(⟨0,0,0⟩ : Vec3)] := by
    simp [maskCA, maskCApts, aC3]
  have hc : centroid aC3 = ⟨1,0,0⟩ := by
    norm_num [centroid, centroidPts, aC3, Vec3.scale, add3_def, zero3_def,
      List.sum_cons, List.sum_nil]
  refine ⟨?_, ?_, ?_, ?_, ?_⟩
  · unfold IsSVD covOf
    norm_num [hm, hc, covMatrix, sC3,
      outer3, Vec3.scale, sub3_def, add3_def, zero3_def, zeroM_def, addM_def,
      List.filterMap_cons, List.sum_cons, List.sum_nil,
      transpose3, diag3, mulM_def, vecMulRow, oneM_def, r0_one, r1_one, r2_one]
    all_goals (and_intros <;> rfl)
  · have hcrd : aC3.coord = [⟨0,0,0⟩, ⟨2,0,0⟩] := rfl
    norm_num [_superimpose, hm, hc, hcrd, covMatrix,
      det3, svdC3, sC3, outer3, Vec3.scale, sub3_def, add3_def, neg3_def,
      zero3_def, zeroM_def, addM_def, List.filterMap_cons, List.sum_cons,
      List.sum_nil, mulM_def, oneM_def, vecMulRow, r0_one, r1_one, r2_one]
    all_goals rfl
  · norm_num [hm, centroidPts, Vec3.scale, zero3_def,
      List.sum_cons, List.sum_nil]
  · norm_num [hm, centroidPts, Vec3.scale, neg3_def,
      zero3_def, List.sum_cons, List.sum_nil]
  · norm_num [hm, hc, Vec3.scale,
      sub3_def, zero3_def, List.sum_cons, List.sum_nil]

/-- Claim C3, amended: the translation components of the returned triple are
built from the centroids of the FULL structures (computed before any
landmark reduction): `T1 = −centroid(mobile)` and `T2 = centroid(fixed)`. -/
theorem transform_translations_are_full_centroids
    (svdf : Mat3 → Mat3 × Vec3 × Mat3) (fixed mobile : AtomArray)
    (ca_only : Bool) (f : AtomArray) (t : Transfm)
    (h : _superimpose svdf fixed mobile ca_only = Except.ok (f, t)) :
    t.t1 = -(centroid mobile) ∧ t.t2 = centroid fixed := by
  obtain ⟨-, ht⟩ := _superimpose_ok svdf fixed mobile ca_only f t h
  rw [ht]
  exact ⟨rfl, rfl⟩

/-- Witness for the amended claim C3 at a concrete successful run. -/
theorem transform_translations_are_full_centroids_witness :
    (⟨⟨-1,0,0⟩, 1, ⟨1,0,0⟩⟩ : Transfm).t1 = -(centroid aC3)
      ∧ (⟨⟨-1,0,0⟩, 1, ⟨1,0,0⟩⟩ : Transfm).t2 = centroid aC3 :=
  transform_translations_are_full_centroids svdC3 aC3 aC3 true aC3
    ⟨⟨-1,0,0⟩, 1, ⟨1,0,0⟩⟩
    (by
      have hm : maskCA aC3 = [(⟨0,0,0⟩ : Vec3)] := by
        simp [maskCA, maskCApts, aC3]
      have hc : centroid aC3 = ⟨1,0,0⟩ := by
        norm_num [centroid, centroidPts, aC3, Vec3.scale, add3_def, zero3_def,
          List.sum_cons, List.sum_nil]
      have hcrd : aC3.coord = [⟨0,0,0⟩, ⟨2,0,0⟩] := rfl
      norm_num [_superimpose, hm, hc, hcrd,
        covMatrix, det3, svdC3, sC3, outer3, Vec3.scale, sub3_def, add3_def,
        neg3_def, zero3_def, zeroM_def, addM_def, List.filterMap_cons,
        List.sum_cons, List.sum_nil, mulM_def, oneM_def, vecMulRow,
        r0_one, r1_one, r2_one]
      all_goals rfl)

/-- Claim C4 (code bug): on fixed and mobile whose Cα point counts differ
(1 versus 2) the size check fires, but the `raise BadStructureException`
statement references a name the module never imports or defines, so the call
raises `NameError` for the identifier `BadStructureException` instead of the
intended structure-mismatch exception; no result is returned. -/
theorem size_mismatch_raises_undefined_name :
    superimpose svdTriv (PyStruct.arr aC4fix) (PyStruct.arr aC4mob) true
      = Except.error (Err.nameError "BadStructureException") := by
  norm_num [superimpose, _superimpose, centroid, centroidPts, maskCA, maskCApts,
    aC4fix, aC4mob, List.filterMap_cons, Except.map]

/-- Claim C6: a stack passed as the `fixed` argument is rejected with the
module's `ValueError` before any alignment work, and a `mobile` argument
that is neither a single structure nor a stack is rejected with the same
`ValueError`. -/
theorem non_array_inputs_raise_valueError
    (svdf : Mat3 → Mat3 × Vec3 × Mat3) (ca_only : Bool)
    (st : AtomArrayStack) (mobileP : PyStruct) (fixed : AtomArray) :
    superimpose svdf (PyStruct.stk st) mobileP ca_only
        = Except.error (Err.valueError "Reference must be AtomArray")
      ∧ superimpose svdf (PyStruct.arr fixed) PyStruct.other ca_only
        = Except.error (Err.valueError "Reference must be AtomArray") :=
  ⟨rfl, rfl⟩

/-- Claim C5: a successful batch run returns exactly one fitted structure
and one transformation per stack member, in stack order, and the pair at
every index equals the result of the single-pair aligner on that member. -/
theorem batch_equals_single_runs (svdf : Mat3 → Mat3 × Vec3 × Mat3)
    (fixed : AtomArray) (st : AtomArrayStack) (ca_only : Bool)
    (fs : AtomArrayStack) (ts : List Transfm)
    (h : superimpose svdf (PyStruct.arr fixed) (PyStruct.stk st) ca_only
          = Except.ok (SupResult.batch fs ts)) :
    fs.arrays.length = st.arrays.length ∧ ts.length = st.arrays.length ∧
      ∀ i (h1 : i < st.arrays.length) (h2 : i < fs.arrays.length)
        (h3 : i < ts.length),
        superimpose svdf (PyStruct.arr fixed)
            (PyStruct.arr (st.arrays.get ⟨i, h1⟩)) ca_only
          = Except.ok (SupResult.single (fs.arrays.get ⟨i, h2⟩)
              (ts.get ⟨i, h3⟩)) := by
  rw [superimpose] at h
  cases hr : superimposeList svdf fixed st.arrays ca_only with
  | error e =>
      rw [hr] at h
      exact Except.noConfusion h
  | ok rs =>
      rw [hr] at h
      obtain ⟨fsa⟩ := fs
      have h2 := Except.ok.inj h
      rw [SupResult.batch.injEq] at h2
      obtain ⟨hfs, hts⟩ := h2
      have hfsa : fsa = rs.map Prod.fst := by
        have := congrArg AtomArrayStack.arrays hfs
        simpa [stack] using this.symm
      obtain ⟨hlen, hidx⟩ := superimposeList_ok svdf fixed ca_only st.arrays rs hr
      subst hts
      subst hfsa
      refine ⟨by simpa using hlen, by simpa using hlen, ?_⟩
      intro i h1 hh2 h3
      have hir : i < rs.length := by
        rw [hlen]; exact h1
      have hstep := hidx i h1 hir
      rw [superimpose, hstep]
      have hfi : (rs.map Prod.fst).get ⟨i, hh2⟩ = (rs.get ⟨i, hir⟩).1 := by
        simp
      have hti : (rs.map Prod.snd).get ⟨i, h3⟩ = (rs.get ⟨i, hir⟩).2 := by
        simp
      rw [hfi, hti]
      rfl

/-- Witness for claim C5: a one-member stack aligned against a one-atom
reference matches the single-pair run on that member. -/
theorem batch_equals_single_runs_witness :
    superimpose svdTriv (PyStruct.arr aW) (PyStruct.arr aW) true
      = Except.ok (SupResult.single aW ⟨⟨0,0,0⟩, 1, ⟨0,0,0⟩⟩) := by
  have h0 : superimpose svdTriv (PyStruct.arr aW) (PyStruct.stk ⟨[aW]⟩) true
      = Except.ok (SupResult.batch ⟨[aW]⟩ [⟨⟨0,0,0⟩, 1, ⟨0,0,0⟩⟩]) := by
    norm_num [superimpose, superimposeList, _superimpose, centroid, centroidPts,
      maskCA, maskCApts, covMatrix, det3, aW, svdTriv, outer3, Vec3.scale,
      sub3_def, add3_def, neg3_def, zero3_def, zeroM_def, addM_def,
      List.filterMap_cons, List.sum_cons, List.sum_nil, mulM_def, oneM_def,
      vecMulRow, r0_one, r1_one, r2_one, stack, Except.map]
    all_goals rfl
  have hall := batch_equals_single_runs svdTriv aW ⟨[aW]⟩ true ⟨[aW]⟩
    [⟨⟨0,0,0⟩, 1, ⟨0,0,0⟩⟩] h0
  simpa using hall.2.2 0 (by norm_num) (by norm_num) (by norm_num)

/-- Claim C9: a successful worker run copies every annotation array of the
mobile structure into the fitted structure unchanged; only the coordinate
array is replaced. -/
theorem fitted_copies_annotations (svdf : Mat3 → Mat3 × Vec3 × Mat3)
    (fixed mobile : AtomArray) (ca_only : Bool) (f : AtomArray) (t : Transfm)
    (h : _superimpose svdf fixed mobile ca_only = Except.ok (f, t)) :
    f.chain_id = mobile.chain_id ∧ f.res_id = mobile.res_id ∧
      f.res_name = mobile.res_name ∧ f.atom_name = mobile.atom_name ∧
      f.element = mobile.element := by
  obtain ⟨hf, -⟩ := _superimpose_ok svdf fixed mobile ca_only f t h
  rw [hf]
  exact ⟨rfl, rfl, rfl, rfl, rfl⟩

/-- Witness for claim C9 at a concrete successful run. -/
theorem fitted_copies_annotations_witness :
    aW.chain_id = aW.chain_id ∧ aW.res_id = aW.res_id ∧
      aW.res_name = aW.res_name ∧ aW.atom_name = aW.atom_name ∧
      aW.element = aW.element :=
  fitted_copies_annotations svdTriv aW aW true aW ⟨⟨0,0,0⟩, 1, ⟨0,0,0⟩⟩
    (by norm_num [_superimpose, centroid, centroidPts, maskCA, maskCApts,
      covMatrix, det3, aW, svdTriv, outer3, Vec3.scale, sub3_def, add3_def,
      neg3_def, zero3_def, zeroM_def, addM_def, List.filterMap_cons,
      List.sum_cons, List.sum_nil, mulM_def, oneM_def, vecMulRow,
      r0_one, r1_one, r2_one])

/-- Claim C10: when neither input has any Cα atom, both landmark-reduced
sets are empty, the size check compares `0 = 0` and passes, and the run
never raises the size-mismatch exception — even though the two structures
have different total atom counts. -/
theorem empty_landmark_sets_pass_size_check (svdf : Mat3 → Mat3 × Vec3 × Mat3)
    (fixed mobile : AtomArray)
    (hf : ∀ n ∈ fixed.atom_name, n ≠ " CA ")
    (hm : ∀ n ∈ mobile.atom_name, n ≠ " CA ") :
    maskCA fixed = [] ∧ maskCA mobile = [] ∧
      _superimpose svdf fixed mobile true
        ≠ Except.error (Err.nameError "BadStructureException") := by
  have h1 : maskCA fixed = [] := maskCApts_eq_nil _ _ hf
  have h2 : maskCA mobile = [] := maskCApts_eq_nil _ _ hm
  refine ⟨h1, h2, ?_⟩
  rw [_superimpose_unfold]
  rw [if_neg (by simp [h1, h2])]
  split <;> simp

/-- Witness for claim C10: one Cα-free atom against two Cα-free atoms. -/
theorem empty_landmark_sets_pass_size_check_witness :
    maskCA aC10fix = [] ∧ maskCA aC10mob = [] ∧
      _superimpose svdTriv aC10fix aC10mob true
        ≠ Except.error (Err.nameError "BadStructureException") :=
  empty_landmark_sets_pass_size_check svdTriv aC10fix aC10mob
    (by intro n hn; simp [aC10fix] at hn; subst hn; decide)
    (by intro n hn; simp [aC10mob] at hn; rcases hn with rfl | rfl <;> decide)

/-- Claim C7: aligning a structure onto an identical copy of itself returns
the identity rotation and fitted coordinates equal to the original, for any
SVD triple of the (symmetric, positive semidefinite) self covariance that
meets the numpy contract and whose singular values are distinct and
positive. -/
theorem self_alignment_identity (svdf : Mat3 → Mat3 × Vec3 × Mat3)
    (a : AtomArray) (ca_only : Bool) (v : Mat3) (s : Vec3) (w : Mat3)
    (hor : svdf (covMatrix (centeredSelf a ca_only) (centeredSelf a ca_only))
      = (v, s, w))
    (hsvd : IsSVD (covMatrix (centeredSelf a ca_only) (centeredSelf a ca_only))
      v s w)
    (h01 : s.y < s.x) (h12 : s.z < s.y) (h2 : 0 < s.z) :
    _superimpose svdf a a ca_only
      = Except.ok (a, ⟨-(centroid a), 1, centroid a⟩) := by
  have hvw : v * w = 1 :=
    rotation_one_of_svd_symm _ v s w hsvd (covMatrix_self_symm _)
      (fun z => quad3_covMatrix_self_nonneg _ z) h01 h12 h2
  have hcov : covOf a a ca_only
      = covMatrix (centeredSelf a ca_only) (centeredSelf a ca_only) := rfl
  have hdet : det3 v * det3 w = 1 := by
    rw [← det3_mul, hvw, det3_one]
  rw [_superimpose_unfold]
  rw [if_neg (by simp)]
  rw [hcov, hor]
  dsimp only
  rw [if_neg (by rw [hdet]; norm_num)]
  rw [hvw]
  have hco : ((a.coord.map (fun p => p - centroid a)).map
        (fun p => vecMulRow p 1)).map (fun p => p + centroid a) = a.coord := by
    induction a.coord with
    | nil => rfl
    | cons p tl ih =>
        simp only [List.map_cons, List.cons.injEq]
        refine ⟨?_, ih⟩
        rw [vecMulRow_one, sub_add_cancel]
  rw [hco]

/-- Witness for claim C7: six Cα atoms at `±e₁, ±2e₂, ±3e₃`, whose self
covariance `diag (2, 8, 18)` has the exact SVD with singular values
`(18, 8, 2)`; the run returns the identity rotation and the structure
itself. -/
theorem self_alignment_identity_witness :
    _superimpose svdC7 aC7 aC7 true
      = Except.ok (aC7, ⟨-(centroid aC7), 1, centroid aC7⟩) :=
  self_alignment_identity svdC7 aC7 true vC7 sC7 wC7 rfl
    (by
      unfold IsSVD
      norm_num [covMatrix, centeredSelf, maskCA, maskCApts, centroid,
        centroidPts, aC7, aC1fix, vC7, sC7, wC7, outer3, Vec3.scale, sub3_def,
        add3_def, zero3_def, zeroM_def, addM_def, List.replicate,
        List.filterMap_cons, List.sum_cons, List.sum_nil, transpose3, diag3,
        mulM_def, vecMulRow, oneM_def]
      all_goals rfl)
    (by norm_num [sC7]) (by norm_num [sC7]) (by norm_num [sC7])

/-- Claim C8: neither the aligner nor the replayer ever writes a
caller-supplied coordinate buffer — after any run, valid input addresses
hold exactly the buffers they held before — and a successfully returned
fitted container references a freshly allocated buffer, aliasing neither
input. -/
theorem no_caller_buffer_mutation (svdf : Mat3 → Mat3 × Vec3 × Mat3)
    (h0 : Heap) (fixed mobile : AtomArrayH) (ca_only : Bool)
    (hfx : fixed.coord < h0.length) (hmb : mobile.coord < h0.length)
    (h0a : Heap) (atoms : AtomArrayH) (t : Transfm)
    (hat : atoms.coord < h0a.length) :
    readH (_superimposeH svdf h0 fixed mobile ca_only).1 fixed.coord
        = readH h0 fixed.coord
      ∧ readH (_superimposeH svdf h0 fixed mobile ca_only).1 mobile.coord
        = readH h0 mobile.coord
      ∧ (∀ f tr,
          (_superimposeH svdf h0 fixed mobile ca_only).2 = Except.ok (f, tr) →
          f.coord ≠ fixed.coord ∧ f.coord ≠ mobile.coord)
      ∧ readH (applyH h0a atoms t).1 atoms.coord = readH h0a atoms.coord := by
  have e := _superimposeH_ext svdf h0 fixed mobile ca_only
  have ea := applyH_ext h0a atoms t
  refine ⟨e.2 _ hfx, e.2 _ hmb, ?_, ea.2 _ hat⟩
  intro f tr hok
  have hge := _superimposeH_fresh svdf h0 fixed mobile ca_only f tr hok
  constructor
  · intro hEq
    exact absurd (hEq ▸ hge) (not_le.mpr hfx)
  · intro hEq
    exact absurd (hEq ▸ hge) (not_le.mpr hmb)

/-- Witness for claim C8: a two-buffer heap, the worker aligning buffer 1
onto buffer 0 and the replayer run on buffer 0, with both input buffers
read back unchanged afterwards. -/
theorem no_caller_buffer_mutation_witness :
    readH (_superimposeH svdTriv h0C8 fixH mobH true).1 fixH.coord
        = readH h0C8 fixH.coord
      ∧ readH (_superimposeH svdTriv h0C8 fixH mobH true).1 mobH.coord
        = readH h0C8 mobH.coord
      ∧ readH (applyH h0C8 fixH ⟨⟨0,0,0⟩, 1, ⟨0,0,0⟩⟩).1 fixH.coord
        = readH h0C8 fixH.coord := by
  have h := no_caller_buffer_mutation svdTriv h0C8 fixH mobH true
    (by norm_num [fixH, h0C8]) (by norm_num [mobH, h0C8])
    h0C8 fixH ⟨⟨0,0,0⟩, 1, ⟨0,0,0⟩⟩ (by norm_num [fixH, h0C8])
  exact ⟨h.1, h.2.1, h.2.2.2⟩

/-- The value `apply_superimposition` computes into its local `transformed`
(before falling off the end) does equal the fitted structure of the run the
transformation came from: the replay is faithful, only the `return` is
missing. -/
theorem applyTransformed_realizes_fitted (svdf : Mat3 → Mat3 × Vec3 × Mat3)
    (fixed mobile : AtomArray) (ca_only : Bool) (f : AtomArray) (t : Transfm)
    (h : _superimpose svdf fixed mobile ca_only = Except.ok (f, t)) :
    applyTransformed mobile t = f := by
  obtain ⟨hf, ht⟩ := _superimpose_ok svdf fixed mobile ca_only f t h
  rw [hf, ht, applyTransformed]
  have hmaps : mobile.coord.map (fun p => p + -(centroid mobile))
      = mobile.coord.map (fun p => p - centroid mobile) := by
    induction mobile.coord with
    | nil => rfl
    | cons p tl ih =>
        simp only [List.map_cons, List.cons.injEq]
        exact ⟨(sub_eq_add_neg p (centroid mobile)).symm, ih⟩
  simp only [hmaps]
